import Mathlib

/-!
Verification of the fixed-window rate-limiting middleware of the honotreez
repository (`src/lib/logger.ts`: `MemoryStore`, `rateLimit`).

The JavaScript `Map<string, {count, resetTime}>` backing `MemoryStore` is
modelled as an association list observed only through `Store.find`
(= `Map.get`), `Store.insert` (= `Map.set`, replacing any previous binding)
and `Store.erase` (= `Map.delete`).  `Date.now()` is an explicit `now : Nat`
parameter (milliseconds).  JavaScript number arithmetic on these
non-negative quantities is exact integer arithmetic, so `Nat`/`Int` model it
faithfully; `Math.max(0, ·)` is taken over `Int` and then converted to `Nat`.
The middleware body returned by `rateLimit(options)` becomes the pure
function `rateLimitStep`, which maps the request instant, the generated key,
the result of the `skip` predicate and the current store to the observable
response effects (headers set on the context and the control-flow outcome)
plus the updated store.
-/

namespace HonoTreez

/-- One entry of `MemoryStore`'s map: `{ count: number; resetTime: number }`. -/
structure Entry where
  count : Nat
  resetTime : Nat
deriving DecidableEq, Repr

/-- The state of a `MemoryStore`: its JS `Map` viewed as an association list
with (observationally) unique keys. -/
abbrev Store := List (String × Entry)

/-- `Map.get key` on the underlying map. -/
def Store.find : Store → String → Option Entry
  | [], _ => none
  | (k', e) :: rest, k => if k' = k then some e else Store.find rest k

/-- `Map.delete key` on the underlying map. -/
def Store.erase : Store → String → Store
  | [], _ => []
  | (k', e) :: rest, k =>
      if k' = k then Store.erase rest k else (k', e) :: Store.erase rest k

/-- `Map.set key entry` on the underlying map (replaces any previous
binding for `key`). -/
def Store.insert (s : Store) (k : String) (e : Entry) : Store :=
  (k, e) :: Store.erase s k

/-- `MemoryStore.get`: returns the live count for `key`, deleting and
reporting absent an expired entry (`Date.now() > data.resetTime`), and
absent a missing one.  Returns the (possibly mutated) store alongside. -/
def MemoryStore.get (now : Nat) (key : String) (s : Store) : Option Nat × Store :=
  match Store.find s key with
  | none => (none, s)
  | some data =>
      if data.resetTime < now then (none, Store.erase s key)
      else (some data.count, s)

/-- `MemoryStore.set`: stores `{count: value, resetTime: Date.now() + ttl}`. -/
def MemoryStore.set (now : Nat) (key : String) (value ttl : Nat) (s : Store) : Store :=
  Store.insert s key ⟨value, now + ttl⟩

/-- `MemoryStore.increment`: on an absent or expired entry returns 0 and
leaves the store untouched; on a live entry bumps the count in place and
returns the new value. -/
def MemoryStore.increment (now : Nat) (key : String) (s : Store) : Nat × Store :=
  match Store.find s key with
  | none => (0, s)
  | some data =>
      if data.resetTime < now then (0, s)
      else (data.count + 1, Store.insert s key ⟨data.count + 1, data.resetTime⟩)

/-- `MemoryStore.cleanup`: drops every expired entry. -/
def MemoryStore.cleanup (now : Nat) (s : Store) : Store :=
  s.filter fun p => decide (now ≤ p.2.resetTime)

/-- The configuration assembled from `RateLimitOptions` with the source's
defaults.  `keyGenerator` and `skip` act before the counting logic, so the
evaluator below takes their per-request results (the key, the skip bit) as
inputs; `hasHandler` records whether a custom rejection `handler` was
configured. -/
structure RateLimitConfig where
  limit : Nat := 100
  windowMs : Nat := 60000
  message : String := "Too many requests, please try again later."
  hasHandler : Bool := false
  standardHeaders : Bool := true
  legacyHeaders : Bool := false
deriving DecidableEq, Repr

/-- The structured `cause` of the 429 `HTTPException`. -/
structure Cause where
  limit : Nat
  remaining : Nat
  reset : Nat
deriving DecidableEq, Repr

/-- Control-flow outcome of one middleware invocation: call `next`
(proceed), delegate to the configured `handler`, or throw the
`HTTPException` (rejected). -/
inductive Outcome where
  | proceed
  | handled
  | rejected (status : Nat) (message : String) (cause : Cause)
deriving DecidableEq, Repr

/-- The response effects of one invocation observable on the context:
headers set via `c.header` (in order) and the control-flow outcome. -/
structure Obs where
  headers : List (String × String)
  outcome : Outcome
deriving DecidableEq, Repr

/-- `Math.ceil(x / 1000)` for a non-negative integer number of
milliseconds. -/
def ceilDiv1000 (x : Nat) : Nat := (x + 999) / 1000

/-- `Math.max(0, limit - (currentCount === 0 ? 1 : currentCount + 1))`. -/
def remainingOf (limit currentCount : Nat) : Nat :=
  (max 0 ((limit : Int) - (if currentCount = 0 then 1 else (currentCount : Int) + 1))).toNat

/-- The `RateLimit-*` headers set when `standardHeaders` is on. -/
def stdHeadersOf (cfg : RateLimitConfig) (remaining resetTime : Nat) :
    List (String × String) :=
  if cfg.standardHeaders then
    [("RateLimit-Limit", toString cfg.limit),
     ("RateLimit-Remaining", toString remaining),
     ("RateLimit-Reset", toString (ceilDiv1000 resetTime))]
  else []

/-- The `X-RateLimit-*` headers set when `legacyHeaders` is on. -/
def legacyHeadersOf (cfg : RateLimitConfig) (remaining resetTime : Nat) :
    List (String × String) :=
  if cfg.legacyHeaders then
    [("X-RateLimit-Limit", toString cfg.limit),
     ("X-RateLimit-Remaining", toString remaining),
     ("X-RateLimit-Reset", toString (ceilDiv1000 resetTime))]
  else []

/-- The response side of the evaluator, given the pre-increment
`currentCount` read from the store: computes `remaining`,
`isLimitExceeded = currentCount >= limit`, sets the headers, and either
proceeds, delegates to the handler, or throws the 429 with
`{limit, remaining: 0, reset}`.  `resetTime = now + windowMs` is the value
recomputed by the middleware at this request (it is NOT read back from the
store). -/
def rateLimitRespond (cfg : RateLimitConfig) (now currentCount : Nat) : Obs :=
  let resetTime := now + cfg.windowMs
  let remaining := remainingOf cfg.limit currentCount
  let base := stdHeadersOf cfg remaining resetTime ++ legacyHeadersOf cfg remaining resetTime
  if cfg.limit ≤ currentCount then
    let headers := base ++ [("Retry-After", toString (ceilDiv1000 cfg.windowMs))]
    if cfg.hasHandler then ⟨headers, .handled⟩
    else ⟨headers, .rejected 429 cfg.message ⟨cfg.limit, 0, ceilDiv1000 resetTime⟩⟩
  else ⟨base, .proceed⟩

/-- One invocation of the middleware body returned by `rateLimit`:
short-circuit on `skip`; read `currentCount = store.get(key) || 0`;
`store.set(key, 1, windowMs)` when it is 0, else `store.increment(key)`;
then produce the response effects of `rateLimitRespond`.  The store update
happens unconditionally, before the limit check. -/
def rateLimitStep (cfg : RateLimitConfig) (now : Nat) (key : String)
    (skipped : Bool) (s : Store) : Obs × Store :=
  if skipped then (⟨[], .proceed⟩, s)
  else
    let gr := MemoryStore.get now key s
    let currentCount := gr.1.getD 0
    let s2 :=
      if currentCount = 0 then MemoryStore.set now key 1 cfg.windowMs gr.2
      else (MemoryStore.increment now key gr.2).2
    (rateLimitRespond cfg now currentCount, s2)

/-- Run a sequence of non-skipped requests for one key at the given
instants (cooperative single-threaded execution: each invocation completes
before the next starts), collecting each request's observable effects. -/
def runRequests (cfg : RateLimitConfig) (key : String) :
    List Nat → Store → List Obs × Store
  | [], s => ([], s)
  | t :: ts, s =>
      let r := rateLimitStep cfg t key false s
      let rest := runRequests cfg key ts r.2
      (r.1 :: rest.1, rest.2)

/-- First value of a named response header, mirroring how a client reads
`c.header(name, value)` results (each name is set at most once here). -/
def headerValue (headers : List (String × String)) (name : String) : Option String :=
  (headers.find? fun p => p.1 == name).map fun p => p.2

/-- The source's default `message`. -/
def defaultMessage : String := "Too many requests, please try again later."

/-- The all-default configuration (`limit` 100, `windowMs` 60000,
`standardHeaders` on, `legacyHeaders` off, no handler). -/
def cfgDefault : RateLimitConfig :=
  RateLimitConfig.mk 100 60000 defaultMessage false true false

/-- Defaults with `limit` 2, for concrete runs. -/
def cfgLimit2 : RateLimitConfig :=
  RateLimitConfig.mk 2 60000 defaultMessage false true false

/-- Defaults with `limit` 5, matching the spec's example scenario. -/
def cfgLimit5 : RateLimitConfig :=
  RateLimitConfig.mk 5 60000 defaultMessage false true false

/-- Defaults with both standard and legacy headers enabled. -/
def cfgBothHeaders : RateLimitConfig :=
  RateLimitConfig.mk 100 60000 defaultMessage false true true

/-- Placeholder observation used as a `getD` default in closed statements. -/
def obsDefault : Obs := Obs.mk [] Outcome.proceed

end HonoTreez

namespace HonoTreez

/-! ### Association-list (JS `Map`) observations -/

theorem Store.find_erase_self (s : Store) (k : String) :
    Store.find (Store.erase s k) k = none := by
  induction s with
  | nil => rfl
  | cons p rest ih =>
      obtain ⟨k', e⟩ := p
      by_cases h : k' = k
      · simp [Store.erase, h, ih]
      · simp [Store.erase, Store.find, h, ih]

theorem Store.find_erase_ne (s : Store) (k k' : String) (h : k' ≠ k) :
    Store.find (Store.erase s k) k' = Store.find s k' := by
  induction s with
  | nil => rfl
  | cons p rest ih =>
      obtain ⟨k₀, e⟩ := p
      by_cases h0 : k₀ = k
      · subst h0
        simp [Store.erase, Store.find, Ne.symm h, ih]
      · simp only [Store.erase, h0, if_neg h0, Store.find]
        by_cases h1 : k₀ = k'
        · simp [h1]
        · simp [h1, ih]

theorem Store.find_insert_self (s : Store) (k : String) (e : Entry) :
    Store.find (Store.insert s k e) k = some e := by
  simp [Store.insert, Store.find]

theorem Store.find_insert_ne (s : Store) (k k' : String) (e : Entry) (h : k' ≠ k) :
    Store.find (Store.insert s k e) k' = Store.find s k' := by
  have : k ≠ k' := fun hk => h hk.symm
  simp [Store.insert, Store.find, this, Store.find_erase_ne s k k' h]

theorem Store.erase_idem (s : Store) (k : String) :
    Store.erase (Store.erase s k) k = Store.erase s k := by
  induction s with
  | nil => rfl
  | cons p rest ih =>
      obtain ⟨k₀, e⟩ := p
      by_cases h0 : k₀ = k
      · simp [Store.erase, h0, ih]
      · simp [Store.erase, h0, ih]

/-! ### Single-invocation behaviour of the middleware body -/

/-- A skipped request leaves the store untouched, sets no header and
proceeds. -/
theorem rateLimitStep_skip (cfg : RateLimitConfig) (now : Nat) (key : String)
    (s : Store) : rateLimitStep cfg now key true s = (⟨[], .proceed⟩, s) := rfl

/-- First request of a window (key absent): the store gets
`{count: 1, resetTime: now + windowMs}` and the response is computed from
`currentCount = 0`. -/
theorem rateLimitStep_fresh (cfg : RateLimitConfig) (now : Nat) (key : String)
    (s : Store) (habs : Store.find s key = none) :
    rateLimitStep cfg now key false s =
      (rateLimitRespond cfg now 0, Store.insert s key ⟨1, now + cfg.windowMs⟩) := by
  simp [rateLimitStep, MemoryStore.get, habs, MemoryStore.set]

/-- Subsequent request inside a live window: the count is bumped, the
stored `resetTime` is kept, and the response is computed from the
pre-increment count. -/
theorem rateLimitStep_live (cfg : RateLimitConfig) (now : Nat) (key : String)
    (s : Store) (c rt : Nat) (hfind : Store.find s key = some ⟨c, rt⟩)
    (hc : c ≠ 0) (hlive : now ≤ rt) :
    rateLimitStep cfg now key false s =
      (rateLimitRespond cfg now c, Store.insert s key ⟨c + 1, rt⟩) := by
  have hnot : ¬ rt < now := Nat.not_lt.mpr hlive
  simp [rateLimitStep, MemoryStore.get, hfind, hnot, MemoryStore.increment, hc]

/-- Request arriving after the stored window expired: `get` deletes the
entry and reports absent, so a fresh window starts exactly as from an
absent key. -/
theorem rateLimitStep_expired (cfg : RateLimitConfig) (now : Nat) (key : String)
    (s : Store) (c rt : Nat) (hfind : Store.find s key = some ⟨c, rt⟩)
    (hexp : rt < now) :
    rateLimitStep cfg now key false s =
      (rateLimitRespond cfg now 0, Store.insert s key ⟨1, now + cfg.windowMs⟩) := by
  simp only [rateLimitStep, MemoryStore.get, hfind, if_pos hexp, if_neg,
    Bool.false_eq_true, if_false, Option.getD_none, if_pos rfl, MemoryStore.set]
  simp [Store.insert, Store.erase_idem]

end HonoTreez

namespace HonoTreez

/-! ### Response observations -/

theorem rateLimitRespond_outcome_proceed (cfg : RateLimitConfig) (now c : Nat)
    (h : c < cfg.limit) : (rateLimitRespond cfg now c).outcome = .proceed := by
  simp [rateLimitRespond, Nat.not_le.mpr h]

theorem rateLimitRespond_outcome_rejected (cfg : RateLimitConfig) (now c : Nat)
    (h : cfg.limit ≤ c) (hh : cfg.hasHandler = false) :
    (rateLimitRespond cfg now c).outcome =
      .rejected 429 cfg.message ⟨cfg.limit, 0, ceilDiv1000 (now + cfg.windowMs)⟩ := by
  simp [rateLimitRespond, h, hh]

theorem rateLimitRespond_not_proceed (cfg : RateLimitConfig) (now c : Nat)
    (h : cfg.limit ≤ c) : (rateLimitRespond cfg now c).outcome ≠ Outcome.proceed := by
  by_cases hh : cfg.hasHandler <;> simp [rateLimitRespond, h, hh]

theorem rateLimitRespond_headers (cfg : RateLimitConfig) (now c : Nat) :
    (rateLimitRespond cfg now c).headers =
      stdHeadersOf cfg (remainingOf cfg.limit c) (now + cfg.windowMs) ++
      legacyHeadersOf cfg (remainingOf cfg.limit c) (now + cfg.windowMs) ++
      (if cfg.limit ≤ c then [("Retry-After", toString (ceilDiv1000 cfg.windowMs))]
       else []) := by
  by_cases h : cfg.limit ≤ c
  · by_cases hh : cfg.hasHandler <;> simp [rateLimitRespond, h, hh]
  · simp [rateLimitRespond, h]

theorem headerValue_reset (cfg : RateLimitConfig) (now c : Nat)
    (hstd : cfg.standardHeaders = true) :
    headerValue (rateLimitRespond cfg now c).headers "RateLimit-Reset" =
      some (toString (ceilDiv1000 (now + cfg.windowMs))) := by
  rw [rateLimitRespond_headers]
  simp [stdHeadersOf, hstd, headerValue, List.find?]

theorem headerValue_remaining (cfg : RateLimitConfig) (now c : Nat)
    (hstd : cfg.standardHeaders = true) :
    headerValue (rateLimitRespond cfg now c).headers "RateLimit-Remaining" =
      some (toString (remainingOf cfg.limit c)) := by
  rw [rateLimitRespond_headers]
  simp [stdHeadersOf, hstd, headerValue, List.find?]

theorem headerValue_reset_legacy (cfg : RateLimitConfig) (now c : Nat)
    (hleg : cfg.legacyHeaders = true) :
    headerValue (rateLimitRespond cfg now c).headers "X-RateLimit-Reset" =
      some (toString (ceilDiv1000 (now + cfg.windowMs))) := by
  rw [rateLimitRespond_headers]
  by_cases hstd : cfg.standardHeaders <;>
    simp [stdHeadersOf, legacyHeadersOf, hstd, hleg, headerValue, List.find?]

theorem headerValue_retryAfter (cfg : RateLimitConfig) (now c : Nat)
    (h : cfg.limit ≤ c) :
    headerValue (rateLimitRespond cfg now c).headers "Retry-After" =
      some (toString (ceilDiv1000 cfg.windowMs)) := by
  rw [rateLimitRespond_headers]
  by_cases hstd : cfg.standardHeaders <;> by_cases hleg : cfg.legacyHeaders <;>
    simp [stdHeadersOf, legacyHeadersOf, hstd, hleg, h, headerValue, List.find?]

/-! ### Trajectories: sequences of requests for one key -/

theorem runRequests_length (cfg : RateLimitConfig) (key : String) (ts : List Nat)
    (s : Store) : (runRequests cfg key ts s).1.length = ts.length := by
  induction ts generalizing s with
  | nil => rfl
  | cons t ts ih => simp [runRequests, ih]

theorem runRequests_live_store (cfg : RateLimitConfig) (key : String)
    (ts : List Nat) (s : Store) (c rt : Nat)
    (hfind : Store.find s key = some ⟨c, rt⟩) (hc : c ≠ 0)
    (hts : ∀ t ∈ ts, t ≤ rt) :
    Store.find (runRequests cfg key ts s).2 key = some ⟨c + ts.length, rt⟩ := by
  induction ts generalizing s c with
  | nil => simpa using hfind
  | cons t ts ih =>
      have ht : t ≤ rt := hts t (by simp)
      simp only [runRequests, rateLimitStep_live cfg t key s c rt hfind hc ht]
      have h2 := ih (Store.insert s key ⟨c + 1, rt⟩) (c + 1)
        (Store.find_insert_self s key ⟨c + 1, rt⟩) (by omega)
        (fun t' ht' => hts t' (by simp [ht']))
      rw [show c + (t :: ts).length = c + 1 + ts.length by simp; omega]
      exact h2

theorem runRequests_live_obs (cfg : RateLimitConfig) (key : String)
    (ts : List Nat) (s : Store) (c rt : Nat)
    (hfind : Store.find s key = some ⟨c, rt⟩) (hc : c ≠ 0)
    (hts : ∀ t ∈ ts, t ≤ rt) (n : Nat) (hn : n < ts.length) :
    (runRequests cfg key ts s).1[n]? =
      some (rateLimitRespond cfg (ts.getD n 0) (c + n)) := by
  induction ts generalizing s c n with
  | nil => simp at hn
  | cons t ts ih =>
      have ht : t ≤ rt := hts t (by simp)
      simp only [runRequests, rateLimitStep_live cfg t key s c rt hfind hc ht]
      cases n with
      | zero => simp
      | succ n =>
          have h2 := ih (Store.insert s key ⟨c + 1, rt⟩) (c + 1)
            (Store.find_insert_self s key ⟨c + 1, rt⟩) (by omega)
            (fun t' ht' => hts t' (by simp [ht'])) n (by simpa using hn)
          rw [show c + (n + 1) = c + 1 + n by omega]
          simpa using h2

theorem runRequests_live_count (cfg : RateLimitConfig) (key : String)
    (ts : List Nat) (s : Store) (c rt : Nat)
    (hfind : Store.find s key = some ⟨c, rt⟩) (hc : c ≠ 0)
    (hts : ∀ t ∈ ts, t ≤ rt) (m : Nat) :
    (((runRequests cfg key ts s).1.take m).countP
        fun o => decide (o.outcome = Outcome.proceed)) =
      min (min m ts.length) (cfg.limit - c) := by
  induction ts generalizing s c m with
  | nil => simp [runRequests]
  | cons t ts ih =>
      have ht : t ≤ rt := hts t (by simp)
      simp only [runRequests, rateLimitStep_live cfg t key s c rt hfind hc ht]
      cases m with
      | zero => simp
      | succ m =>
          rw [List.take_succ_cons, List.countP_cons]
          have h2 := ih (Store.insert s key ⟨c + 1, rt⟩) (c + 1)
            (Store.find_insert_self s key ⟨c + 1, rt⟩) (by omega)
            (fun t' ht' => hts t' (by simp [ht'])) m
          rw [h2]
          by_cases hlt : c < cfg.limit
          · simp only [rateLimitRespond_outcome_proceed cfg t c hlt]
            simp only [List.length_cons]
            simp
            omega
          · have hne := rateLimitRespond_not_proceed cfg t c (Nat.not_lt.mp hlt)
            simp only [List.length_cons]
            simp [hne]
            omega

end HonoTreez

namespace HonoTreez

/-- Observable effects of the `n`-th request (0-indexed) in a run that
starts a fresh window: the `n`-th invocation reads pre-increment count `n`
and responds accordingly, using its own arrival instant. -/
theorem runRequests_fresh_obs (cfg : RateLimitConfig) (key : String)
    (t0 : Nat) (ts : List Nat) (s : Store)
    (habs : Store.find s key = none)
    (hts : ∀ t ∈ ts, t ≤ t0 + cfg.windowMs) (n : Nat)
    (hn : n < (t0 :: ts).length) :
    (runRequests cfg key (t0 :: ts) s).1[n]? =
      some (rateLimitRespond cfg ((t0 :: ts).getD n 0) n) := by
  simp only [runRequests, rateLimitStep_fresh cfg t0 key s habs]
  cases n with
  | zero => simp
  | succ n =>
      have h2 := runRequests_live_obs cfg key ts
        (Store.insert s key ⟨1, t0 + cfg.windowMs⟩) 1 (t0 + cfg.windowMs)
        (Store.find_insert_self s key ⟨1, t0 + cfg.windowMs⟩) (by omega)
        hts n (by simpa using hn)
      rw [Nat.add_comm 1 n] at h2
      simpa using h2

/-- Store state after a full fresh-window run: the entry ends at
`count = length` with the `resetTime` fixed by the first request. -/
theorem runRequests_fresh_store (cfg : RateLimitConfig) (key : String)
    (t0 : Nat) (ts : List Nat) (s : Store)
    (habs : Store.find s key = none)
    (hts : ∀ t ∈ ts, t ≤ t0 + cfg.windowMs) :
    Store.find (runRequests cfg key (t0 :: ts) s).2 key =
      some ⟨ts.length + 1, t0 + cfg.windowMs⟩ := by
  simp only [runRequests, rateLimitStep_fresh cfg t0 key s habs]
  have h2 := runRequests_live_store cfg key ts
    (Store.insert s key ⟨1, t0 + cfg.windowMs⟩) 1 (t0 + cfg.windowMs)
    (Store.find_insert_self s key ⟨1, t0 + cfg.windowMs⟩) (by omega) hts
  rw [show ts.length + 1 = 1 + ts.length by omega]
  exact h2

/-- Number of admitted (proceed) requests among the first `m` of a
fresh-window run: `min m limit` as long as `m` does not exceed the run. -/
theorem runRequests_fresh_count (cfg : RateLimitConfig) (key : String)
    (t0 : Nat) (ts : List Nat) (s : Store)
    (habs : Store.find s key = none)
    (hts : ∀ t ∈ ts, t ≤ t0 + cfg.windowMs) (m : Nat)
    (hm : m ≤ (t0 :: ts).length) :
    (((runRequests cfg key (t0 :: ts) s).1.take m).countP
        fun o => decide (o.outcome = Outcome.proceed)) = min m cfg.limit := by
  simp only [runRequests, rateLimitStep_fresh cfg t0 key s habs]
  cases m with
  | zero => simp
  | succ m =>
      rw [List.take_succ_cons, List.countP_cons]
      have h2 := runRequests_live_count cfg key ts
        (Store.insert s key ⟨1, t0 + cfg.windowMs⟩) 1 (t0 + cfg.windowMs)
        (Store.find_insert_self s key ⟨1, t0 + cfg.windowMs⟩) (by omega) hts m
      rw [h2]
      have hm' : m ≤ ts.length := by simpa using hm
      by_cases hlt : 0 < cfg.limit
      · simp only [rateLimitRespond_outcome_proceed cfg t0 0 hlt]
        simp
        omega
      · have hne := rateLimitRespond_not_proceed cfg t0 0 (by omega)
        simp [hne]
        omega

end HonoTreez

namespace HonoTreez

/-- C1: for every key and configured limit, running requests of one window
(first request on an absent key, all later instants within `windowMs` of
it, none skipped, no custom handler), the `n`-th request (0-indexed; the
`N = n+1`-th) proceeds to the next stage exactly when `N ≤ limit`, and
otherwise — in particular the `limit+1`-th — is rejected with the 429
error; the decision compares the pre-increment count (which equals `n`)
against `limit`. -/
theorem claim_C1_window_admission (cfg : RateLimitConfig) (key : String)
    (t0 : Nat) (ts : List Nat) (s : Store) (n : Nat)
    (hh : cfg.hasHandler = false) (habs : Store.find s key = none)
    (hts : ∀ t ∈ ts, t ≤ t0 + cfg.windowMs) (hn : n < (t0 :: ts).length) :
    ((runRequests cfg key (t0 :: ts) s).1[n]?).map Obs.outcome =
      some (if n < cfg.limit then Outcome.proceed
            else Outcome.rejected 429 cfg.message
              ⟨cfg.limit, 0, ceilDiv1000 ((t0 :: ts).getD n 0 + cfg.windowMs)⟩) := by
  rw [runRequests_fresh_obs cfg key t0 ts s habs hts n hn]
  by_cases hlt : n < cfg.limit
  · simp [hlt, rateLimitRespond_outcome_proceed cfg _ n hlt]
  · simp [hlt, rateLimitRespond_outcome_rejected cfg _ n (Nat.not_lt.mp hlt) hh]

/-- C1 witness: with `limit = 2`, requests at 0ms, 1000ms, 2000ms on one
key: the third request (index 2) is the `limit+1`-th and is rejected
with 429. -/
theorem claim_C1_window_admission_witness :
    ((runRequests cfgLimit2 "ratelimit:1.2.3.4" [0, 1000, 2000] []).1[2]?).map
        Obs.outcome =
      some (if 2 < cfgLimit2.limit then Outcome.proceed
            else Outcome.rejected 429 cfgLimit2.message
              ⟨cfgLimit2.limit, 0,
               ceilDiv1000 (([0, 1000, 2000] : List Nat).getD 2 0 + cfgLimit2.windowMs)⟩) :=
  claim_C1_window_admission cfgLimit2 "ratelimit:1.2.3.4" 0 [1000, 2000] [] 2
    rfl rfl (by decide) (by decide)

/-- C2 counterexample: with the default configuration two requests of the
same window, at 0ms and 10000ms, emit different `RateLimit-Reset` values
(60 then 70), so the value is not constant until the window rolls over as
the claim states. -/
theorem claim_C2_counterexample :
    headerValue (((runRequests cfgDefault "ratelimit:1.2.3.4" [0, 10000] []).1.getD 0
        obsDefault).headers) "RateLimit-Reset" = some "60" ∧
    headerValue (((runRequests cfgDefault "ratelimit:1.2.3.4" [0, 10000] []).1.getD 1
        obsDefault).headers) "RateLimit-Reset" = some "70" ∧
    (10000 : Nat) ≤ 0 + cfgDefault.windowMs ∧ ("60" : String) ≠ "70" := by decide

/-- C2 (amended): the `RateLimit-Reset` value (and its `X-RateLimit-Reset`
equivalent) emitted for a non-skipped request is
`ceil((now + windowMs)/1000)` recomputed from that request's own arrival
instant — it equals window start plus `windowMs` only for the request that
starts the window, and slides forward on every later request within the
same window. -/
theorem claim_C2_reset_recomputed (cfg : RateLimitConfig) (now : Nat)
    (key : String) (s : Store) :
    (cfg.standardHeaders = true →
      headerValue (rateLimitStep cfg now key false s).1.headers "RateLimit-Reset" =
        some (toString (ceilDiv1000 (now + cfg.windowMs)))) ∧
    (cfg.legacyHeaders = true →
      headerValue (rateLimitStep cfg now key false s).1.headers "X-RateLimit-Reset" =
        some (toString (ceilDiv1000 (now + cfg.windowMs)))) := by
  have hobs : (rateLimitStep cfg now key false s).1 =
      rateLimitRespond cfg now ((MemoryStore.get now key s).1.getD 0) := by
    simp [rateLimitStep]
  rw [hobs]
  exact ⟨fun hstd => headerValue_reset cfg now _ hstd,
         fun hleg => headerValue_reset_legacy cfg now _ hleg⟩

/-- C2 witness: at `now = 10000` with both header families on, both reset
headers read 70 (= ceil(70000/1000)), not the window-start value. -/
theorem claim_C2_reset_recomputed_witness :
    (cfgBothHeaders.standardHeaders = true →
      headerValue (rateLimitStep cfgBothHeaders 10000 "k" false []).1.headers
          "RateLimit-Reset" =
        some (toString (ceilDiv1000 (10000 + cfgBothHeaders.windowMs)))) ∧
    (cfgBothHeaders.legacyHeaders = true →
      headerValue (rateLimitStep cfgBothHeaders 10000 "k" false []).1.headers
          "X-RateLimit-Reset" =
        some (toString (ceilDiv1000 (10000 + cfgBothHeaders.windowMs)))) :=
  claim_C2_reset_recomputed cfgBothHeaders 10000 "k" []

/-- C3 counterexample: `limit = 5`, five requests at 0ms and a sixth at
10000ms (10 seconds into the 60-second window).  The sixth is rejected,
but `Retry-After` is 60 — the full window — not the 50 seconds remaining,
and the cause's `reset` is 70 (computed from the arrival instant), not the
window end 60. -/
theorem claim_C3_counterexample :
    headerValue (((runRequests cfgLimit5 "ratelimit:1.2.3.4" [0, 0, 0, 0, 0, 10000]
        []).1.getD 5 obsDefault).headers) "Retry-After" = some "60" ∧
    ((runRequests cfgLimit5 "ratelimit:1.2.3.4" [0, 0, 0, 0, 0, 10000] []).1.getD 5
        obsDefault).outcome =
      Outcome.rejected 429 cfgLimit5.message (Cause.mk 5 0 70) ∧
    (0 + cfgLimit5.windowMs - 10000) / 1000 = 50 ∧ ("60" : String) ≠ "50" ∧
    ceilDiv1000 (0 + cfgLimit5.windowMs) = 60 ∧ (70 : Nat) ≠ 60 := by decide

/-- C3 (amended): every rejected request (pre-increment count at least
`limit`, live window, no custom handler) gets `Retry-After` equal to
`ceil(windowMs/1000)` — the full window length, regardless of how far into
the window it arrives — and the 429 error carries the configured message
and cause `{limit, remaining: 0, reset}` with
`reset = ceil((now + windowMs)/1000)` computed from the rejected request's
own arrival instant rather than the window end. -/
theorem claim_C3_rejection_shape (cfg : RateLimitConfig) (now : Nat)
    (key : String) (s : Store) (c rt : Nat)
    (hfind : Store.find s key = some ⟨c, rt⟩) (hc : c ≠ 0) (hlive : now ≤ rt)
    (hlim : cfg.limit ≤ c) (hh : cfg.hasHandler = false) :
    headerValue (rateLimitStep cfg now key false s).1.headers "Retry-After" =
      some (toString (ceilDiv1000 cfg.windowMs)) ∧
    (rateLimitStep cfg now key false s).1.outcome =
      Outcome.rejected 429 cfg.message
        ⟨cfg.limit, 0, ceilDiv1000 (now + cfg.windowMs)⟩ := by
  rw [rateLimitStep_live cfg now key s c rt hfind hc hlive]
  exact ⟨headerValue_retryAfter cfg now c hlim,
         rateLimitRespond_outcome_rejected cfg now c hlim hh⟩

/-- C3 witness: store holding count 5 for the key, window ending at
60000ms, rejected request at 10000ms with `limit = 5`. -/
theorem claim_C3_rejection_shape_witness :
    headerValue (rateLimitStep cfgLimit5 10000 "k" false
        [("k", Entry.mk 5 60000)]).1.headers "Retry-After" =
      some (toString (ceilDiv1000 cfgLimit5.windowMs)) ∧
    (rateLimitStep cfgLimit5 10000 "k" false [("k", Entry.mk 5 60000)]).1.outcome =
      Outcome.rejected 429 cfgLimit5.message
        ⟨cfgLimit5.limit, 0, ceilDiv1000 (10000 + cfgLimit5.windowMs)⟩ :=
  claim_C3_rejection_shape cfgLimit5 10000 "k" [("k", Entry.mk 5 60000)] 5 60000
    rfl (by decide) (by decide) (by decide) rfl

end HonoTreez

namespace HonoTreez

theorem remainingOf_eq_sub_min (limit n : Nat) :
    remainingOf limit n = limit - min (n + 1) limit := by
  unfold remainingOf
  by_cases h : n = 0
  · subst h
    simp
    omega
  · simp [h]
    omega

theorem MemoryStore.get_find_ne (now : Nat) (a b : String) (s : Store)
    (h : b ≠ a) : Store.find (MemoryStore.get now a s).2 b = Store.find s b := by
  unfold MemoryStore.get
  cases hfa : Store.find s a with
  | none => rfl
  | some data =>
      by_cases hexp : data.resetTime < now
      · simp [hexp, Store.find_erase_ne s a b h]
      · simp [hexp]

theorem MemoryStore.increment_find_ne (now : Nat) (a b : String) (s : Store)
    (h : b ≠ a) :
    Store.find (MemoryStore.increment now a s).2 b = Store.find s b := by
  unfold MemoryStore.increment
  cases hfa : Store.find s a with
  | none => rfl
  | some data =>
      by_cases hexp : data.resetTime < now
      · simp [hexp]
      · simp [hexp, Store.find_insert_ne s a b _ h]

theorem rateLimitStep_find_ne (cfg : RateLimitConfig) (now : Nat)
    (a b : String) (skipped : Bool) (s : Store) (h : b ≠ a) :
    Store.find (rateLimitStep cfg now a skipped s).2 b = Store.find s b := by
  cases skipped with
  | true => rfl
  | false =>
      have hstep : (rateLimitStep cfg now a false s).2 =
          if ((MemoryStore.get now a s).1.getD 0) = 0 then
            MemoryStore.set now a 1 cfg.windowMs (MemoryStore.get now a s).2
          else (MemoryStore.increment now a (MemoryStore.get now a s).2).2 := by
        simp [rateLimitStep]
      rw [hstep]
      by_cases h0 : ((MemoryStore.get now a s).1.getD 0) = 0
      · rw [if_pos h0, MemoryStore.set,
          Store.find_insert_ne (MemoryStore.get now a s).2 a b _ h,
          MemoryStore.get_find_ne now a b s h]
      · rw [if_neg h0, MemoryStore.increment_find_ne now a b _ h,
          MemoryStore.get_find_ne now a b s h]

/-- C4: once strictly more than `windowMs` has elapsed past the window
start `tFirst` (the stored `resetTime` is `tFirst + windowMs`), the next
non-skipped request finds the store reporting the key absent (the entry is
lazily deleted), and a fresh entry `{count: 1, resetTime: now + windowMs}`
is created — regardless of the count `c` accumulated in the prior
window. -/
theorem claim_C4_window_expiry (cfg : RateLimitConfig) (key : String)
    (s : Store) (c tFirst now : Nat)
    (hfind : Store.find s key = some ⟨c, tFirst + cfg.windowMs⟩)
    (hexp : tFirst + cfg.windowMs < now) :
    (MemoryStore.get now key s).1 = none ∧
    Store.find (rateLimitStep cfg now key false s).2 key =
      some ⟨1, now + cfg.windowMs⟩ := by
  constructor
  · simp [MemoryStore.get, hfind, hexp]
  · rw [rateLimitStep_expired cfg now key s c (tFirst + cfg.windowMs) hfind hexp]
    exact Store.find_insert_self s key ⟨1, now + cfg.windowMs⟩

/-- C4 witness: a key holding count 7 in a window that ended at 60000ms,
revisited at 61000ms, restarts at count 1 with a fresh window. -/
theorem claim_C4_window_expiry_witness :
    (MemoryStore.get 61000 "k" [("k", Entry.mk 7 60000)]).1 = none ∧
    Store.find (rateLimitStep cfgDefault 61000 "k" false
        [("k", Entry.mk 7 60000)]).2 "k" =
      some ⟨1, 61000 + cfgDefault.windowMs⟩ :=
  claim_C4_window_expiry cfgDefault "k" [("k", Entry.mk 7 60000)] 7 0 61000
    rfl (by decide)

/-- C5: over a fresh-window run, the number of admitted (proceed) requests
among the first `n+1` is `min (n+1) limit`, and the `n`-th request's
`RateLimit-Remaining` header equals `limit` minus that number — the
non-negative `max(0, limit - (currentCount==0 ? 1 : currentCount+1))` of
the pre-increment count. -/
theorem claim_C5_remaining_header (cfg : RateLimitConfig) (key : String)
    (t0 : Nat) (ts : List Nat) (s : Store) (n : Nat)
    (hstd : cfg.standardHeaders = true) (habs : Store.find s key = none)
    (hts : ∀ t ∈ ts, t ≤ t0 + cfg.windowMs) (hn : n < (t0 :: ts).length) :
    (((runRequests cfg key (t0 :: ts) s).1.take (n + 1)).countP
        fun o => decide (o.outcome = Outcome.proceed)) = min (n + 1) cfg.limit ∧
    ((runRequests cfg key (t0 :: ts) s).1[n]?).map
        (fun o => headerValue o.headers "RateLimit-Remaining") =
      some (some (toString (cfg.limit - min (n + 1) cfg.limit))) := by
  refine ⟨runRequests_fresh_count cfg key t0 ts s habs hts (n + 1) (by omega), ?_⟩
  rw [runRequests_fresh_obs cfg key t0 ts s habs hts n hn]
  rw [Option.map_some', headerValue_remaining cfg _ n hstd, remainingOf_eq_sub_min]

/-- C5 witness: `limit = 2`, three requests in one window: 2 of the first
3 are admitted and the third reports `RateLimit-Remaining: 0`. -/
theorem claim_C5_remaining_header_witness :
    (((runRequests cfgLimit2 "ratelimit:1.2.3.4" [0, 1000, 2000] []).1.take 3).countP
        fun o => decide (o.outcome = Outcome.proceed)) = min 3 cfgLimit2.limit ∧
    ((runRequests cfgLimit2 "ratelimit:1.2.3.4" [0, 1000, 2000] []).1[2]?).map
        (fun o => headerValue o.headers "RateLimit-Remaining") =
      some (some (toString (cfgLimit2.limit - min 3 cfgLimit2.limit))) :=
  claim_C5_remaining_header cfgLimit2 "ratelimit:1.2.3.4" 0 [1000, 2000] [] 2
    rfl rfl (by decide) (by decide)

/-- C6: a request whose `skip` predicate evaluated to true proceeds
directly to the next stage: the store is returned unchanged (no read
result is consumed, no entry is created, bumped or deleted) and no header
is set. -/
theorem claim_C6_skip_bypasses (cfg : RateLimitConfig) (now : Nat)
    (key : String) (s : Store) :
    rateLimitStep cfg now key true s = (Obs.mk [] Outcome.proceed, s) := rfl

/-- C7: operations for key `a` — a `get`, a `set`, an `increment`, or a
whole middleware invocation (even one driving `a` past its limit) — leave
the stored entry for any other key `b` exactly as it was. -/
theorem claim_C7_key_isolation (cfg : RateLimitConfig) (now : Nat)
    (a b : String) (s : Store) (v ttl : Nat) (skipped : Bool) (hab : a ≠ b) :
    Store.find (MemoryStore.get now a s).2 b = Store.find s b ∧
    Store.find (MemoryStore.set now a v ttl s) b = Store.find s b ∧
    Store.find (MemoryStore.increment now a s).2 b = Store.find s b ∧
    Store.find (rateLimitStep cfg now a skipped s).2 b = Store.find s b := by
  have h := Ne.symm hab
  exact ⟨MemoryStore.get_find_ne now a b s h,
         Store.find_insert_ne s a b ⟨v, now + ttl⟩ h,
         MemoryStore.increment_find_ne now a b s h,
         rateLimitStep_find_ne cfg now a b skipped s h⟩

/-- C7 witness: hammering key `ratelimit:a` does not move key
`ratelimit:b`'s entry. -/
theorem claim_C7_key_isolation_witness :
    Store.find (MemoryStore.get 0 "ratelimit:a"
        [("ratelimit:b", Entry.mk 3 60000)]).2 "ratelimit:b" =
      Store.find [("ratelimit:b", Entry.mk 3 60000)] "ratelimit:b" ∧
    Store.find (MemoryStore.set 0 "ratelimit:a" 1 60000
        [("ratelimit:b", Entry.mk 3 60000)]) "ratelimit:b" =
      Store.find [("ratelimit:b", Entry.mk 3 60000)] "ratelimit:b" ∧
    Store.find (MemoryStore.increment 0 "ratelimit:a"
        [("ratelimit:b", Entry.mk 3 60000)]).2 "ratelimit:b" =
      Store.find [("ratelimit:b", Entry.mk 3 60000)] "ratelimit:b" ∧
    Store.find (rateLimitStep cfgLimit2 0 "ratelimit:a" false
        [("ratelimit:b", Entry.mk 3 60000)]).2 "ratelimit:b" =
      Store.find [("ratelimit:b", Entry.mk 3 60000)] "ratelimit:b" :=
  claim_C7_key_isolation cfgLimit2 0 "ratelimit:a" "ratelimit:b"
    [("ratelimit:b", Entry.mk 3 60000)] 1 60000 false (by decide)

end HonoTreez

namespace HonoTreez

/-- C8: the stored `resetTime` is fixed by the `set` of the window's first
request and never moves afterwards: a non-first request inside a live
window (pre-read count nonzero, so the evaluator takes the `increment`
branch, not `set`) leaves the entry at `{count + 1, resetTime unchanged}`;
and `MemoryStore.increment` never changes any entry's `resetTime`,
whatever the store, key and instant (fixed window, not sliding). -/
theorem claim_C8_reset_time_fixed (cfg : RateLimitConfig) (key : String)
    (s : Store) (c rt now : Nat) (s' : Store) (k : String) (m : Nat)
    (hfind : Store.find s key = some ⟨c, rt⟩) (hc : c ≠ 0) (hlive : now ≤ rt) :
    Store.find (rateLimitStep cfg now key false s).2 key = some ⟨c + 1, rt⟩ ∧
    (Store.find (MemoryStore.increment m k s').2 k).map Entry.resetTime =
      (Store.find s' k).map Entry.resetTime := by
  constructor
  · rw [rateLimitStep_live cfg now key s c rt hfind hc hlive]
    exact Store.find_insert_self s key ⟨c + 1, rt⟩
  · unfold MemoryStore.increment
    cases hfa : Store.find s' k with
    | none => simp [hfa]
    | some data =>
        by_cases hexp : data.resetTime < m
        · simp [hfa, hexp]
        · simp [hfa, hexp, Store.find_insert_self]

/-- C8 witness: second request of a live window bumps the count to 3 and
keeps `resetTime` = 60000; `increment` preserves the entry's
`resetTime`. -/
theorem claim_C8_reset_time_fixed_witness :
    Store.find (rateLimitStep cfgDefault 1000 "k" false
        [("k", Entry.mk 2 60000)]).2 "k" = some ⟨2 + 1, 60000⟩ ∧
    (Store.find (MemoryStore.increment 1000 "k"
        [("k", Entry.mk 2 60000)]).2 "k").map Entry.resetTime =
      (Store.find [("k", Entry.mk 2 60000)] "k").map Entry.resetTime :=
  claim_C8_reset_time_fixed cfgDefault "k" [("k", Entry.mk 2 60000)] 2 60000 1000
    [("k", Entry.mk 2 60000)] "k" 1000 rfl (by decide) (by decide)

/-- C9: `MemoryStore.increment` on an absent key is a no-op returning 0
with the store unchanged; on an expired entry likewise (the entry is not
even deleted); on a live entry it adds one to the stored count and returns
the updated value. -/
theorem claim_C9_increment_contract (now : Nat) (key : String) (s : Store) :
    (Store.find s key = none → MemoryStore.increment now key s = (0, s)) ∧
    (∀ c rt, Store.find s key = some ⟨c, rt⟩ → rt < now →
      MemoryStore.increment now key s = (0, s)) ∧
    (∀ c rt, Store.find s key = some ⟨c, rt⟩ → now ≤ rt →
      (MemoryStore.increment now key s).1 = c + 1 ∧
      Store.find (MemoryStore.increment now key s).2 key = some ⟨c + 1, rt⟩) := by
  refine ⟨fun habs => ?_, fun c rt hfind hexp => ?_, fun c rt hfind hlive => ?_⟩
  · simp [MemoryStore.increment, habs]
  · simp [MemoryStore.increment, hfind, hexp]
  · have hnot : ¬ rt < now := Nat.not_lt.mpr hlive
    exact ⟨by simp [MemoryStore.increment, hfind, hnot],
           by simp [MemoryStore.increment, hfind, hnot, Store.find_insert_self]⟩

/-- C9 witness: absent key and expired entry are no-ops returning 0; a
live entry at count 2 goes to 3 and 3 is returned. -/
theorem claim_C9_increment_contract_witness :
    MemoryStore.increment 50 "q" [("k", Entry.mk 2 100)] =
      (0, [("k", Entry.mk 2 100)]) ∧
    MemoryStore.increment 200 "k" [("k", Entry.mk 2 100)] =
      (0, [("k", Entry.mk 2 100)]) ∧
    (MemoryStore.increment 50 "k" [("k", Entry.mk 2 100)]).1 = 2 + 1 ∧
    Store.find (MemoryStore.increment 50 "k" [("k", Entry.mk 2 100)]).2 "k" =
      some ⟨2 + 1, 100⟩ :=
  ⟨(claim_C9_increment_contract 50 "q" [("k", Entry.mk 2 100)]).1 rfl,
   (claim_C9_increment_contract 200 "k" [("k", Entry.mk 2 100)]).2.1 2 100 rfl
     (by decide),
   (claim_C9_increment_contract 50 "k" [("k", Entry.mk 2 100)]).2.2 2 100 rfl
     (by decide)⟩

/-- C10: when the pre-read count is already at or past the limit (live
window, no custom handler), every further non-skipped request is rejected
with the 429 error and yet still increments the stored count, so within
one window the count keeps growing past `limit` as rejected requests keep
arriving: after `ts.length` further requests it stands at
`c + ts.length`. -/
theorem claim_C10_rejected_still_counts (cfg : RateLimitConfig) (key : String)
    (ts : List Nat) (s : Store) (c rt : Nat)
    (hfind : Store.find s key = some ⟨c, rt⟩) (hc : c ≠ 0)
    (hlim : cfg.limit ≤ c) (hh : cfg.hasHandler = false)
    (hts : ∀ t ∈ ts, t ≤ rt) :
    (∀ n, n < ts.length →
      ((runRequests cfg key ts s).1[n]?).map Obs.outcome =
        some (Outcome.rejected 429 cfg.message
          ⟨cfg.limit, 0, ceilDiv1000 (ts.getD n 0 + cfg.windowMs)⟩)) ∧
    Store.find (runRequests cfg key ts s).2 key = some ⟨c + ts.length, rt⟩ := by
  constructor
  · intro n hn
    rw [runRequests_live_obs cfg key ts s c rt hfind hc hts n hn,
      Option.map_some',
      rateLimitRespond_outcome_rejected cfg _ (c + n) (by omega) hh]
  · exact runRequests_live_store cfg key ts s c rt hfind hc hts

/-- C10 witness: `limit = 2`, entry already at count 2: two more requests
are both rejected and the count still reaches 4. -/
theorem claim_C10_rejected_still_counts_witness :
    ((runRequests cfgLimit2 "k" [1000, 2000] [("k", Entry.mk 2 60000)]).1[0]?).map
        Obs.outcome =
      some (Outcome.rejected 429 cfgLimit2.message
        ⟨cfgLimit2.limit, 0,
         ceilDiv1000 (([1000, 2000] : List Nat).getD 0 0 + cfgLimit2.windowMs)⟩) ∧
    Store.find (runRequests cfgLimit2 "k" [1000, 2000]
        [("k", Entry.mk 2 60000)]).2 "k" = some ⟨2 + 2, 60000⟩ :=
  ⟨(claim_C10_rejected_still_counts cfgLimit2 "k" [1000, 2000]
      [("k", Entry.mk 2 60000)] 2 60000 rfl (by decide) (by decide) rfl
      (by decide)).1 0 (by decide),
   (claim_C10_rejected_still_counts cfgLimit2 "k" [1000, 2000]
      [("k", Entry.mk 2 60000)] 2 60000 rfl (by decide) (by decide) rfl
      (by decide)).2⟩

end HonoTreez
